import Mathlib

/-!
Shallow embedding of `src/python_server.py` (a websocket chat server with
guilds), for checking the natural-language specification against the code.

Modelling conventions:
* Python dicts are association lists that preserve insertion order
  (`alistGet` finds the first binding, `alistSet` replaces in place or
  appends, `alistErase` removes the binding), matching CPython's ordered
  dicts.
* A websocket connection handle is a `SessionId` (an opaque `Nat`).
* `username` values come from `auth_data.get('username')`, which yields
  `None` when the field is absent, so usernames are `Option String`
  throughout (Python happily stores `None` in member lists and dict keys).
* The random tokens produced by `uuid.uuid4()` in `create_guild` are passed
  in as explicit parameters (`freshId`, `freshCode`), and the wall-clock
  timestamp of `datetime.now().strftime(...)` as a `now : String` parameter.
* `await websocket.send(...)` is modelled as emitting a `SessionId × OutMsg`
  pair; a handler step returns the new server state together with the list
  of sends it performed, in order.
* A `json.JSONDecodeError` on an inbound frame is modelled by handing the
  dispatcher `none` instead of a parsed envelope; a `KeyError` from a
  missing required field (for example `data['name']`) is modelled by the
  corresponding `Option` field being `none`.  Both are caught by the
  `except` clauses around the message loop of `server_handler`, which log
  and continue, so the dispatcher returns the state unchanged with no
  sends.  The `elif` chain of `server_handler` (lines 128-213) is embedded
  one handler function per action type, dispatched by `handleMessage`.
-/

/-- A websocket connection handle (opaque identity). -/
abbrev SessionId := Nat

/-- A display name as the server stores it: `auth_data.get('username')`,
which is `None` when the auth envelope carries no username. -/
abbrev Username := Option String

/-- The parsed JSON envelope: the fields the server ever reads.  A field
is `none` when absent from the JSON object (Python `dict.get` / `KeyError`
on subscript). -/
structure Envelope where
  type : String
  username : Option String := none
  name : Option String := none
  invite_code : Option String := none
  guild_id : Option String := none
  content : Option String := none
  timestamp : Option String := none
  sender : Option Username := none
deriving DecidableEq, Repr

/-- Per-connection metadata: `CONNECTED_USERS[websocket]`. -/
structure UserData where
  username : Username
  guild : Option String
deriving DecidableEq, Repr

/-- A guild descriptor: `GUILDS[guild_id]`. -/
structure Guild where
  id : String
  name : String
  owner : Username
  invite_code : String
  members : List Username
deriving DecidableEq, Repr

/-- First binding for a key in an insertion-ordered dict. -/
def alistGet {α β : Type} [DecidableEq α] (l : List (α × β)) (k : α) : Option β :=
  match l with
  | [] => none
  | p :: rest => if p.1 = k then some p.2 else alistGet rest k

/-- `d[k] = v` on an insertion-ordered dict: replace in place if the key is
present, otherwise append at the end. -/
def alistSet {α β : Type} [DecidableEq α] (l : List (α × β)) (k : α) (v : β) : List (α × β) :=
  match l with
  | [] => [(k, v)]
  | p :: rest => if p.1 = k then (k, v) :: rest else p :: alistSet rest k v

/-- `del d[k]` on an insertion-ordered dict (keys are unique in reachable
states, so removing the first binding is removal). -/
def alistErase {α β : Type} [DecidableEq α] (l : List (α × β)) (k : α) : List (α × β) :=
  match l with
  | [] => []
  | p :: rest => if p.1 = k then rest else p :: alistErase rest k

/-- The process-wide server state: the five module-level dicts
`CONNECTED_USERS`, `GUILDS`, `MESSAGE_HISTORY`, `VOICE_STATE`,
`SCREEN_STATE`.  Presence dicts map a user to `True`, so only the ordered
key list matters and is kept. -/
structure ServerState where
  connected_users : List (SessionId × UserData)
  guilds : List (String × Guild)
  message_history : List (String × List Envelope)
  voice_state : List (String × List Username)
  screen_state : List (String × List Username)
deriving DecidableEq, Repr

/-- The empty state the process starts with. -/
def initState : ServerState := ⟨[], [], [], [], []⟩

/-- The messages the server sends out, one constructor per
`websocket.send(json.dumps(...))` shape. -/
inductive OutMsg where
  | guildCreated (guild : Guild)
  | guildJoined (guild : Guild)
  | errorMsg (message : String)
  | messageHistory (messages : List Envelope)
  | voiceState (users : List Username)
  | screenState (users : List Username)
  | guildList (guilds : List (String × String × String))
  | relay (envelope : Envelope)
deriving DecidableEq, Repr

/-- `create_guild(name, owner)` (python_server.py lines 18-34), with the two
generated random tokens passed in.  Registers the guild and its empty
history and presence stores, returns the descriptor. -/
def create_guild (s : ServerState) (freshId freshCode : String) (name : String)
    (owner : Username) : ServerState × Guild :=
  let g : Guild := { id := freshId, name := name, owner := owner,
                     invite_code := freshCode, members := [owner] }
  ({ s with
      guilds := alistSet s.guilds freshId g,
      message_history := alistSet s.message_history freshId [],
      voice_state := alistSet s.voice_state freshId [],
      screen_state := alistSet s.screen_state freshId [] }, g)

/-- `join_guild(invite_code, username)` (lines 36-43): linear scan over
`GUILDS.items()` in insertion order; on the first invite-code match, append
`username` to `members` if absent, return the (mutated) descriptor; if no
guild matches, return `None`. -/
def join_guild (guilds : List (String × Guild)) (invite_code : String)
    (username : Username) : List (String × Guild) × Option Guild :=
  match guilds with
  | [] => ([], none)
  | (gid, g) :: rest =>
    if g.invite_code = invite_code then
      let g' := if username ∈ g.members then g
                else { g with members := g.members ++ [username] }
      ((gid, g') :: rest, some g')
    else
      let r := join_guild rest invite_code username
      ((gid, g) :: r.1, r.2)

/-- Recipient resolution inside `broadcast_to_guild` (lines 81-84): every
connected session whose `guild` equals `guild_id`, except the sender
(`sender = none` models `sender_websocket=None`, which excludes nobody
since `ws != None` always holds). -/
def recipientsOf (s : ServerState) (guild_id : String) (sender : Option SessionId) :
    List SessionId :=
  (s.connected_users.filter
    (fun p => decide (p.2.guild = some guild_id ∧ some p.1 ≠ sender))).map Prod.fst

/-- `broadcast_to_guild(guild_id, message_data, sender_websocket)`
(lines 76-94): the sends it performs, one serialized envelope per
recipient. -/
def broadcast_to_guild (s : ServerState) (guild_id : String) (msg : Envelope)
    (sender : Option SessionId) : List (SessionId × OutMsg) :=
  (recipientsOf s guild_id sender).map (fun r => (r, OutMsg.relay msg))

/-- `asyncio.gather(*[user.send(...)], return_exceptions=True)` (lines
87-90): every recipient's delivery is attempted and its individual outcome
(success or captured exception) collected; no outcome aborts the others and
nothing is raised to the caller. -/
def gather_send (recipients : List SessionId)
    (attempt : SessionId → Except String Unit) :
    List (SessionId × Except String Unit) :=
  recipients.map (fun r => (r, attempt r))

/-- The full delivery of one broadcast: resolve recipients, then attempt
each send, collecting per-recipient results (lines 81-94). -/
def broadcast_deliver (s : ServerState) (guild_id : String)
    (sender : Option SessionId) (attempt : SessionId → Except String Unit) :
    List (SessionId × Except String Unit) :=
  gather_send (recipientsOf s guild_id sender) attempt

/-- The voice half of `unregister_user`'s cleanup (lines 59-64): if the
user's name is a key of the guild's voice dict, delete it and broadcast a
synthetic `voice_leave` with `sender_websocket=None`. -/
def unregister_voice_cleanup (s : ServerState) (gid : String) (username : Username) :
    ServerState × List (SessionId × OutMsg) :=
  match alistGet s.voice_state gid with
  | some vs =>
    if username ∈ vs then
      let s' := { s with voice_state := alistSet s.voice_state gid (vs.erase username) }
      (s', broadcast_to_guild s' gid { type := "voice_leave", sender := some username } none)
    else (s, [])
  | none => (s, [])

/-- The screen half of `unregister_user`'s cleanup (lines 66-71): same for
the screen dict, with a synthetic `screen_stop`. -/
def unregister_screen_cleanup (s : ServerState) (gid : String) (username : Username) :
    ServerState × List (SessionId × OutMsg) :=
  match alistGet s.screen_state gid with
  | some ss =>
    if username ∈ ss then
      let s' := { s with screen_state := alistSet s.screen_state gid (ss.erase username) }
      (s', broadcast_to_guild s' gid { type := "screen_stop", sender := some username } none)
    else (s, [])
  | none => (s, [])

/-- `unregister_user(websocket)` (lines 50-74): on disconnect, if the
session is registered and in a guild, drop it from the guild's voice and
screen presence dicts in that order (broadcasting *before* the session is
removed from `CONNECTED_USERS`, so the dead socket itself is still in the
recipient scan), then remove the session from the registry.  A second call
finds the session gone and is a no-op. -/
def unregister_user (s : ServerState) (ws : SessionId) :
    ServerState × List (SessionId × OutMsg) :=
  match alistGet s.connected_users ws with
  | none => (s, [])
  | some ud =>
    match ud.guild with
    | none => ({ s with connected_users := alistErase s.connected_users ws }, [])
    | some gid =>
      let r1 := unregister_voice_cleanup s gid ud.username
      let r2 := unregister_screen_cleanup r1.1 gid ud.username
      ({ r2.1 with connected_users := alistErase r2.1.connected_users ws },
       r1.2 ++ r2.2)

/-- The authentication prologue of `server_handler` (lines 100-121): the
first inbound frame must parse (`first = none` models a parse failure or a
transport close, which the outer `except`/`finally` turn into a silent
close) and have `type == 'auth'`; otherwise the socket is closed with
nothing registered.  On `type == 'auth'` the session is registered via
`handle_new_user` with `username = auth_data.get('username')` — which may
be `none` — and the initial `guild_list` snapshot (guilds whose members
contain the username) is sent.  The `Bool` is whether the session reached
the message loop (was registered). -/
def auth_step (s : ServerState) (ws : SessionId) (first : Option Envelope) :
    ServerState × List (SessionId × OutMsg) × Bool :=
  match first with
  | none => (s, [], false)
  | some d =>
    if d.type = "auth" then
      let username : Username := d.username
      let s' := { s with connected_users := alistSet s.connected_users ws ⟨username, none⟩ }
      let guild_list := (s'.guilds.filter (fun p => decide (username ∈ p.2.members))).map
        (fun p => (p.2.id, p.2.name, p.2.invite_code))
      (s', [(ws, OutMsg.guildList guild_list)], true)
    else
      (s, [], false)

/-- The `create_guild` branch (lines 128-133): `data['name']` missing is a
`KeyError`, caught with nothing mutated. -/
def handle_create_guild (s : ServerState) (ws : SessionId) (username : Username)
    (d : Envelope) (freshId freshCode : String) :
    ServerState × List (SessionId × OutMsg) :=
  match d.name with
  | none => (s, [])
  | some n =>
    let r := create_guild s freshId freshCode n username
    (r.1, [(ws, OutMsg.guildCreated r.2)])

/-- The `join_guild` branch (lines 135-146): a `None` result from
`join_guild` answers the caller with the `Invalid invite code` error. -/
def handle_join_guild (s : ServerState) (ws : SessionId) (username : Username)
    (d : Envelope) : ServerState × List (SessionId × OutMsg) :=
  match d.invite_code with
  | none => (s, [])
  | some code =>
    let r := join_guild s.guilds code username
    let s' := { s with guilds := r.1 }
    match r.2 with
    | some g => (s', [(ws, OutMsg.guildJoined g)])
    | none => (s', [(ws, OutMsg.errorMsg "Invalid invite code")])

/-- The `switch_guild` branch (lines 148-172): validated against guild
existence and membership, sets the session's guild, then pushes the three
snapshots in source order — history, voice state, screen state. -/
def handle_switch_guild (s : ServerState) (ws : SessionId) (username : Username)
    (d : Envelope) : ServerState × List (SessionId × OutMsg) :=
  match d.guild_id with
  | none => (s, [])
  | some gid =>
    match alistGet s.guilds gid with
    | some g =>
      if username ∈ g.members then
        match alistGet s.connected_users ws with
        | none => (s, [])
        | some ud =>
          let s' := { s with
            connected_users := alistSet s.connected_users ws { ud with guild := some gid } }
          (s', [(ws, OutMsg.messageHistory ((alistGet s'.message_history gid).getD [])),
                (ws, OutMsg.voiceState ((alistGet s'.voice_state gid).getD [])),
                (ws, OutMsg.screenState ((alistGet s'.screen_state gid).getD []))])
      else (s, [])
    | none => (s, [])

/-- The `text` branch (lines 174-179): stamp the envelope with the server
clock, append it to the guild's history, then broadcast it to the guild
excluding the sender.  A session with no current guild is a silent no-op
(`if guild_id:`). -/
def handle_text (s : ServerState) (ws : SessionId) (d : Envelope) (now : String) :
    ServerState × List (SessionId × OutMsg) :=
  match alistGet s.connected_users ws with
  | none => (s, [])
  | some ud =>
    match ud.guild with
    | none => (s, [])
    | some gid =>
      let stamped := { d with timestamp := some now }
      match alistGet s.message_history gid with
      | none => (s, [])
      | some h =>
        let s' := { s with message_history := alistSet s.message_history gid (h ++ [stamped]) }
        (s', broadcast_to_guild s' gid stamped (some ws))

/-- The `voice_join` branch (lines 181-185). -/
def handle_voice_join (s : ServerState) (ws : SessionId) (username : Username)
    (d : Envelope) : ServerState × List (SessionId × OutMsg) :=
  match alistGet s.connected_users ws with
  | none => (s, [])
  | some ud =>
    match ud.guild with
    | none => (s, [])
    | some gid =>
      match alistGet s.voice_state gid with
      | none => (s, [])
      | some vs =>
        let vs' := if username ∈ vs then vs else vs ++ [username]
        let s' := { s with voice_state := alistSet s.voice_state gid vs' }
        (s', broadcast_to_guild s' gid d (some ws))

/-- The `voice_leave` branch (lines 187-191): only acts when the name is a
key of the guild's voice dict. -/
def handle_voice_leave (s : ServerState) (ws : SessionId) (username : Username)
    (d : Envelope) : ServerState × List (SessionId × OutMsg) :=
  match alistGet s.connected_users ws with
  | none => (s, [])
  | some ud =>
    match ud.guild with
    | none => (s, [])
    | some gid =>
      match alistGet s.voice_state gid with
      | none => (s, [])
      | some vs =>
        if username ∈ vs then
          let s' := { s with voice_state := alistSet s.voice_state gid (vs.erase username) }
          (s', broadcast_to_guild s' gid d (some ws))
        else (s, [])

/-- The `voice_data` branch (lines 193-196): pure relay, no mutation. -/
def handle_voice_data (s : ServerState) (ws : SessionId) (d : Envelope) :
    ServerState × List (SessionId × OutMsg) :=
  match alistGet s.connected_users ws with
  | none => (s, [])
  | some ud =>
    match ud.guild with
    | none => (s, [])
    | some gid => (s, broadcast_to_guild s gid d (some ws))

/-- The `screen_start` branch (lines 198-202). -/
def handle_screen_start (s : ServerState) (ws : SessionId) (username : Username)
    (d : Envelope) : ServerState × List (SessionId × OutMsg) :=
  match alistGet s.connected_users ws with
  | none => (s, [])
  | some ud =>
    match ud.guild with
    | none => (s, [])
    | some gid =>
      match alistGet s.screen_state gid with
      | none => (s, [])
      | some ss =>
        let ss' := if username ∈ ss then ss else ss ++ [username]
        let s' := { s with screen_state := alistSet s.screen_state gid ss' }
        (s', broadcast_to_guild s' gid d (some ws))

/-- The `screen_stop` branch (lines 204-208). -/
def handle_screen_stop (s : ServerState) (ws : SessionId) (username : Username)
    (d : Envelope) : ServerState × List (SessionId × OutMsg) :=
  match alistGet s.connected_users ws with
  | none => (s, [])
  | some ud =>
    match ud.guild with
    | none => (s, [])
    | some gid =>
      match alistGet s.screen_state gid with
      | none => (s, [])
      | some ss =>
        if username ∈ ss then
          let s' := { s with screen_state := alistSet s.screen_state gid (ss.erase username) }
          (s', broadcast_to_guild s' gid d (some ws))
        else (s, [])

/-- The `screen_frame` branch (lines 210-213): pure relay, no mutation. -/
def handle_screen_frame (s : ServerState) (ws : SessionId) (d : Envelope) :
    ServerState × List (SessionId × OutMsg) :=
  match alistGet s.connected_users ws with
  | none => (s, [])
  | some ud =>
    match ud.guild with
    | none => (s, [])
    | some gid => (s, broadcast_to_guild s gid d (some ws))

/-- The action types the message loop dispatches on (lines 128-213). -/
def recognizedTypes : List String :=
  ["create_guild", "join_guild", "switch_guild", "text", "voice_join",
   "voice_leave", "voice_data", "screen_start", "screen_stop", "screen_frame"]

/-- The action types handled only when the session has a current guild. -/
def inGuildTypes : List String :=
  ["text", "voice_join", "voice_leave", "voice_data", "screen_start",
   "screen_stop", "screen_frame"]

/-- One iteration of the `async for message_json in websocket` loop of
`server_handler` (lines 123-218): parse the frame (a `none` input models
`json.JSONDecodeError`, logged and ignored), then the `elif` chain on
`data.get('type')`.  An unrecognized `type` falls through every `elif`
with no effect and the loop continues. -/
def handleMessage (s : ServerState) (ws : SessionId) (username : Username)
    (data : Option Envelope) (now : String) (freshId freshCode : String) :
    ServerState × List (SessionId × OutMsg) :=
  match data with
  | none => (s, [])
  | some d =>
    if d.type = "create_guild" then handle_create_guild s ws username d freshId freshCode
    else if d.type = "join_guild" then handle_join_guild s ws username d
    else if d.type = "switch_guild" then handle_switch_guild s ws username d
    else if d.type = "text" then handle_text s ws d now
    else if d.type = "voice_join" then handle_voice_join s ws username d
    else if d.type = "voice_leave" then handle_voice_leave s ws username d
    else if d.type = "voice_data" then handle_voice_data s ws d
    else if d.type = "screen_start" then handle_screen_start s ws username d
    else if d.type = "screen_stop" then handle_screen_stop s ws username d
    else if d.type = "screen_frame" then handle_screen_frame s ws d
    else (s, [])

/-- Repeated invocations of the `join_guild` store operation (state part),
for the idempotence property. -/
def iterate_join : Nat → List (String × Guild) → String → Username → List (String × Guild)
  | 0, gs, _, _ => gs
  | n+1, gs, c, u => iterate_join n (join_guild gs c u).1 c u

/-- One observable transition of the whole server: an authentication
prologue for a fresh connection, one message-loop iteration for some
session, or a disconnect cleanup.  The generated `freshId` of a creation
is modelled as not colliding with an existing guild id, reflecting the
source's reliance on `uuid.uuid4()` randomness (spec §4.2 accepts the
astronomically unlikely collision). -/
inductive Step : ServerState → ServerState → Prop where
  | auth (s : ServerState) (ws : SessionId) (first : Option Envelope) :
      Step s (auth_step s ws first).1
  | message (s : ServerState) (ws : SessionId) (username : Username)
      (data : Option Envelope) (now freshId freshCode : String)
      (hfresh : alistGet s.guilds freshId = none) :
      Step s (handleMessage s ws username data now freshId freshCode).1
  | disconnect (s : ServerState) (ws : SessionId) :
      Step s (unregister_user s ws).1

/-- States reachable from process start by any sequence of operations. -/
def Reachable (s : ServerState) : Prop := Relation.ReflTransGen Step initState s

/-- Invariant: every guild's members list contains its owner. -/
def GuildInv (s : ServerState) : Prop :=
  ∀ gid g, alistGet s.guilds gid = some g → g.owner ∈ g.members

/-- Sample connection metadata for concrete evaluations. -/
def aliceD : UserData := ⟨some "alice", some "g1"⟩

/-- Sample connection metadata for concrete evaluations. -/
def bobD : UserData := ⟨some "bob", some "g1"⟩

/-- Sample connection metadata: authenticated but not in any guild. -/
def carolD : UserData := ⟨some "carol", none⟩

/-- A sample guild for concrete evaluations. -/
def sampleGuild : Guild :=
  { id := "g1", name := "Test", owner := some "alice", invite_code := "ABC123",
    members := [some "alice", some "bob"] }

/-- A sample mid-session server state: alice and bob are in guild `g1`
(alice with voice active), carol is connected but in no guild. -/
def sampleState : ServerState :=
  { connected_users := [(0, aliceD), (1, bobD), (2, carolD)],
    guilds := [("g1", sampleGuild)],
    message_history := [("g1", [])],
    voice_state := [("g1", [some "alice"])],
    screen_state := [("g1", [])] }

/-- A sample delivery outcome map where session 1's transport has failed. -/
def sampleAttempt : SessionId → Except String Unit :=
  fun r => if r = 1 then Except.error "connection closed" else Except.ok ()

/-- Setting a key makes it the first binding found. -/
theorem alistGet_set_self {α β : Type} [DecidableEq α] (l : List (α × β)) (k : α) (v : β) :
    alistGet (alistSet l k v) k = some v := by
  induction l with
  | nil => simp [alistSet, alistGet]
  | cons p rest ih =>
    by_cases h : p.1 = k
    · simp [alistSet, alistGet, h]
    · simp [alistSet, alistGet, h, ih]

/-- Setting one key leaves every other key's binding alone. -/
theorem alistGet_set_ne {α β : Type} [DecidableEq α] (l : List (α × β)) (k k' : α) (v : β)
    (h : k' ≠ k) : alistGet (alistSet l k v) k' = alistGet l k' := by
  induction l with
  | nil => simp [alistSet, alistGet, Ne.symm h]
  | cons p rest ih =>
    by_cases hp : p.1 = k
    · subst hp
      simp [alistSet, alistGet, Ne.symm h]
    · simp only [alistSet, if_neg hp]
      by_cases hp' : p.1 = k'
      · simp [alistGet, hp']
      · simp [alistGet, hp', ih]

/-- A key is absent exactly when no binding carries it. -/
theorem alistGet_eq_none_iff {α β : Type} [DecidableEq α] (l : List (α × β)) (k : α) :
    alistGet l k = none ↔ k ∉ l.map Prod.fst := by
  induction l with
  | nil => simp [alistGet]
  | cons p rest ih =>
    by_cases h : p.1 = k
    · simp [alistGet, h]
    · simp [alistGet, h, ih, Ne.symm h]

/-- Setting an absent key appends the binding at the end, as CPython's
dict insertion does. -/
theorem alistSet_of_get_none {α β : Type} [DecidableEq α] (l : List (α × β)) (k : α) (v : β)
    (h : alistGet l k = none) : alistSet l k v = l ++ [(k, v)] := by
  induction l with
  | nil => simp [alistSet]
  | cons p rest ih =>
    rw [alistGet] at h
    by_cases hp : p.1 = k
    · simp [hp] at h
    · rw [if_neg hp] at h
      simp [alistSet, hp, ih h]

/-- Lookup skips over a block of bindings with other keys. -/
theorem alistGet_append_right {α β : Type} [DecidableEq α] (pre l : List (α × β)) (k : α)
    (h : k ∉ pre.map Prod.fst) : alistGet (pre ++ l) k = alistGet l k := by
  induction pre with
  | nil => rfl
  | cons p rest ih =>
    simp only [List.map_cons, List.mem_cons, not_or] at h
    rw [List.cons_append, alistGet, if_neg (fun hh => h.1 hh.symm)]
    exact ih h.2

/-- Deleting a key removes its binding when keys are unique. -/
theorem alistGet_erase_self {α β : Type} [DecidableEq α] (l : List (α × β)) (k : α)
    (h : (l.map Prod.fst).Nodup) : alistGet (alistErase l k) k = none := by
  induction l with
  | nil => rfl
  | cons p rest ih =>
    simp only [List.map_cons, List.nodup_cons] at h
    by_cases hp : p.1 = k
    · rw [alistErase, if_pos hp, alistGet_eq_none_iff]
      rw [← hp]
      exact h.1
    · rw [alistErase, if_neg hp, alistGet, if_neg hp]
      exact ih h.2

/-- `join_guild` with a code no guild carries scans to the end, mutates
nothing and returns `None`. -/
theorem join_guild_no_match (gs : List (String × Guild)) (c : String) (u : Username)
    (h : ∀ p ∈ gs, p.2.invite_code ≠ c) : join_guild gs c u = (gs, none) := by
  induction gs with
  | nil => simp [join_guild]
  | cons p rest ih =>
    have h1 : p.2.invite_code ≠ c := h p (by simp)
    have h2 := ih (fun q hq => h q (by simp [hq]))
    cases p with
    | mk gid g => simp_all [join_guild]

/-- `join_guild` when the matching guild sits last behind non-matching
guilds: exactly that guild is updated (membership added if absent). -/
theorem join_guild_last (pre : List (String × Guild)) (gid : String) (g : Guild)
    (c : String) (u : Username)
    (hpre : ∀ p ∈ pre, p.2.invite_code ≠ c) (hc : g.invite_code = c) :
    join_guild (pre ++ [(gid, g)]) c u =
      (pre ++ [(gid, if u ∈ g.members then g else { g with members := g.members ++ [u] })],
       some (if u ∈ g.members then g else { g with members := g.members ++ [u] })) := by
  induction pre with
  | nil => simp [join_guild, hc]
  | cons p rest ih =>
    have h1 : p.2.invite_code ≠ c := hpre p (by simp)
    have h2 := ih (fun q hq => hpre q (by simp [hq]))
    cases p with
    | mk pid pg => simp_all [join_guild]

/-- Iterating a `join_guild` that no longer changes the store is a
fixpoint. -/
theorem iterate_join_fixed (n : Nat) (gs : List (String × Guild)) (c : String) (u : Username)
    (h : (join_guild gs c u).1 = gs) : iterate_join n gs c u = gs := by
  induction n with
  | zero => rfl
  | succ m ih => rw [iterate_join, h, ih]

/-- Membership in a broadcast's send list, characterized: the relayed
envelope to exactly the connected sessions in the guild other than the
sender. -/
theorem mem_broadcast_iff (s : ServerState) (gid : String) (msg : Envelope)
    (sender : Option SessionId) (r : SessionId) (m : OutMsg) :
    (r, m) ∈ broadcast_to_guild s gid msg sender ↔
      m = OutMsg.relay msg ∧
      ∃ rd, (r, rd) ∈ s.connected_users ∧ rd.guild = some gid ∧ some r ≠ sender := by
  constructor
  · intro hm
    rcases List.mem_map.1 hm with ⟨r', hr', heq⟩
    injection heq with h1 h2
    rcases List.mem_map.1 hr' with ⟨p, hp, hfst⟩
    rcases List.mem_filter.1 hp with ⟨hpmem, hcond⟩
    rcases of_decide_eq_true hcond with ⟨hgd, hsend⟩
    have hpr : p.1 = r := hfst.trans h1
    refine ⟨h2.symm, p.2, ?_, hgd, hpr ▸ hsend⟩
    rwa [show (r, p.2) = p from by rw [← hpr]]
  · rintro ⟨rfl, rd, hmem, hgd, hsend⟩
    refine List.mem_map.2 ⟨r, ?_, rfl⟩
    exact List.mem_map.2 ⟨(r, rd), List.mem_filter.2 ⟨hmem, decide_eq_true ⟨hgd, hsend⟩⟩, rfl⟩

/-- Counting a fixed-payload pair in a send list counts the recipient. -/
theorem count_pair_map {α β : Type} [DecidableEq α] [DecidableEq β] (l : List α) (r : α) (x : β) :
    (l.map (fun a => (a, x))).count (r, x) = l.count r := by
  induction l with
  | nil => rfl
  | cons a rest ih =>
    by_cases h : a = r
    · subst h
      rw [List.map_cons, List.count_cons_self, List.count_cons_self, ih]
    · rw [List.map_cons, List.count_cons_of_ne (by simp [Ne.symm h]),
        List.count_cons_of_ne (Ne.symm h), ih]

/-- With unique keys, a key whose binding passes the filter shows up
exactly once among the filtered keys. -/
theorem count_key_filter {α β : Type} [DecidableEq α] [DecidableEq β]
    (l : List (α × β)) (r : α) (rd : β) (p : α × β → Bool)
    (hnodup : (l.map Prod.fst).Nodup) (hmem : (r, rd) ∈ l) (hp : p (r, rd) = true) :
    ((l.filter p).map Prod.fst).count r = 1 := by
  induction l with
  | nil => simp at hmem
  | cons q rest ih =>
    simp only [List.map_cons, List.nodup_cons] at hnodup
    rcases List.mem_cons.1 hmem with heq | hmem'
    · subst heq
      rw [List.filter_cons, if_pos hp, List.map_cons, List.count_cons_self]
      have hzero : (rest.map Prod.fst).count r = 0 :=
        List.count_eq_zero.2 (by simpa using hnodup.1)
      have hzf : ((rest.filter p).map Prod.fst).count r = 0 := by
        rw [List.count_eq_zero] at hzero ⊢
        intro hc
        exact hzero (by
          rcases List.mem_map.1 hc with ⟨q', hq', hfst⟩
          exact List.mem_map.2 ⟨q', List.mem_of_mem_filter hq', hfst⟩)
      rw [hzf]
    · have hqr : q.1 ≠ r := by
        intro hq
        exact hnodup.1 (hq ▸ List.mem_map.2 ⟨(r, rd), hmem', rfl⟩)
      rw [List.filter_cons]
      by_cases hpq : p q = true
      · rw [if_pos hpq, List.map_cons, List.count_cons_of_ne (Ne.symm hqr)]
        exact ih hnodup.2 hmem'
      · rw [if_neg hpq]
        exact ih hnodup.2 hmem'

/-- `handle_switch_guild` never touches the guild store. -/
theorem handle_switch_guild_guilds (s : ServerState) (ws : SessionId) (u : Username)
    (d : Envelope) : (handle_switch_guild s ws u d).1.guilds = s.guilds := by
  unfold handle_switch_guild
  repeat' split
  all_goals rfl

/-- `handle_text` never touches the guild store. -/
theorem handle_text_guilds (s : ServerState) (ws : SessionId) (d : Envelope) (now : String) :
    (handle_text s ws d now).1.guilds = s.guilds := by
  unfold handle_text
  repeat' split
  all_goals rfl

/-- `handle_voice_join` never touches the guild store. -/
theorem handle_voice_join_guilds (s : ServerState) (ws : SessionId) (u : Username)
    (d : Envelope) : (handle_voice_join s ws u d).1.guilds = s.guilds := by
  unfold handle_voice_join
  repeat' split
  all_goals rfl

/-- `handle_voice_leave` never touches the guild store. -/
theorem handle_voice_leave_guilds (s : ServerState) (ws : SessionId) (u : Username)
    (d : Envelope) : (handle_voice_leave s ws u d).1.guilds = s.guilds := by
  unfold handle_voice_leave
  repeat' split
  all_goals rfl

/-- `handle_voice_data` never touches the guild store. -/
theorem handle_voice_data_guilds (s : ServerState) (ws : SessionId) (d : Envelope) :
    (handle_voice_data s ws d).1.guilds = s.guilds := by
  unfold handle_voice_data
  repeat' split
  all_goals rfl

/-- `handle_screen_start` never touches the guild store. -/
theorem handle_screen_start_guilds (s : ServerState) (ws : SessionId) (u : Username)
    (d : Envelope) : (handle_screen_start s ws u d).1.guilds = s.guilds := by
  unfold handle_screen_start
  repeat' split
  all_goals rfl

/-- `handle_screen_stop` never touches the guild store. -/
theorem handle_screen_stop_guilds (s : ServerState) (ws : SessionId) (u : Username)
    (d : Envelope) : (handle_screen_stop s ws u d).1.guilds = s.guilds := by
  unfold handle_screen_stop
  repeat' split
  all_goals rfl

/-- `handle_screen_frame` never touches the guild store. -/
theorem handle_screen_frame_guilds (s : ServerState) (ws : SessionId) (d : Envelope) :
    (handle_screen_frame s ws d).1.guilds = s.guilds := by
  unfold handle_screen_frame
  repeat' split
  all_goals rfl

/-- The voice cleanup half never touches the guild store. -/
theorem unregister_voice_cleanup_guilds (s : ServerState) (gid : String) (u : Username) :
    (unregister_voice_cleanup s gid u).1.guilds = s.guilds := by
  unfold unregister_voice_cleanup
  repeat' split
  all_goals rfl

/-- The screen cleanup half never touches the guild store. -/
theorem unregister_screen_cleanup_guilds (s : ServerState) (gid : String) (u : Username) :
    (unregister_screen_cleanup s gid u).1.guilds = s.guilds := by
  unfold unregister_screen_cleanup
  repeat' split
  all_goals rfl

/-- Disconnect cleanup never touches the guild store. -/
theorem unregister_user_guilds (s : ServerState) (ws : SessionId) :
    (unregister_user s ws).1.guilds = s.guilds := by
  cases hud : alistGet s.connected_users ws with
  | none => simp [unregister_user, hud]
  | some ud =>
    cases hg : ud.guild with
    | none => simp [unregister_user, hud, hg]
    | some gid =>
      simp only [unregister_user, hud, hg]
      rw [unregister_screen_cleanup_guilds, unregister_voice_cleanup_guilds]

/-- Authentication never touches the guild store. -/
theorem auth_step_guilds (s : ServerState) (ws : SessionId) (first : Option Envelope) :
    (auth_step s ws first).1.guilds = s.guilds := by
  cases first with
  | none => rfl
  | some d => by_cases h : d.type = "auth" <;> simp [auth_step, h]

/-- One message-loop iteration leaves the guild store alone, creates a
fresh singleton guild, or routes through `join_guild` — nothing else. -/
theorem handleMessage_guilds (s : ServerState) (ws : SessionId) (u : Username)
    (data : Option Envelope) (now fid fcode : String) :
    (handleMessage s ws u data now fid fcode).1.guilds = s.guilds ∨
    (∃ n, (handleMessage s ws u data now fid fcode).1.guilds =
        alistSet s.guilds fid
          { id := fid, name := n, owner := u, invite_code := fcode, members := [u] }) ∨
    (∃ c, (handleMessage s ws u data now fid fcode).1.guilds = (join_guild s.guilds c u).1) := by
  cases data with
  | none => exact Or.inl rfl
  | some d =>
    simp only [handleMessage]
    by_cases h1 : d.type = "create_guild"
    · rw [if_pos h1]
      cases hn : d.name with
      | none => exact Or.inl (by simp [handle_create_guild, hn])
      | some n =>
        exact Or.inr (Or.inl ⟨n, by simp [handle_create_guild, hn, create_guild]⟩)
    · rw [if_neg h1]
      by_cases h2 : d.type = "join_guild"
      · rw [if_pos h2]
        cases hc : d.invite_code with
        | none => exact Or.inl (by simp [handle_join_guild, hc])
        | some c =>
          refine Or.inr (Or.inr ⟨c, ?_⟩)
          simp only [handle_join_guild, hc]
          cases hr : (join_guild s.guilds c u).2 <;> simp [hr]
      · rw [if_neg h2]
        refine Or.inl ?_
        by_cases h3 : d.type = "switch_guild"
        · rw [if_pos h3]
          exact handle_switch_guild_guilds s ws u d
        rw [if_neg h3]
        by_cases h4 : d.type = "text"
        · rw [if_pos h4]
          exact handle_text_guilds s ws d now
        rw [if_neg h4]
        by_cases h5 : d.type = "voice_join"
        · rw [if_pos h5]
          exact handle_voice_join_guilds s ws u d
        rw [if_neg h5]
        by_cases h6 : d.type = "voice_leave"
        · rw [if_pos h6]
          exact handle_voice_leave_guilds s ws u d
        rw [if_neg h6]
        by_cases h7 : d.type = "voice_data"
        · rw [if_pos h7]
          exact handle_voice_data_guilds s ws d
        rw [if_neg h7]
        by_cases h8 : d.type = "screen_start"
        · rw [if_pos h8]
          exact handle_screen_start_guilds s ws u d
        rw [if_neg h8]
        by_cases h9 : d.type = "screen_stop"
        · rw [if_pos h9]
          exact handle_screen_stop_guilds s ws u d
        rw [if_neg h9]
        by_cases h10 : d.type = "screen_frame"
        · rw [if_pos h10]
          exact handle_screen_frame_guilds s ws d
        rw [if_neg h10]

/-- `join_guild` keeps every existing guild's binding, extending at most
one members list by one name at its end. -/
theorem join_guild_lookup_mono (gs : List (String × Guild)) (c : String) (u : Username)
    (gid : String) (g : Guild) (h : alistGet gs gid = some g) :
    ∃ g', alistGet (join_guild gs c u).1 gid = some g' ∧
      g.members <+: g'.members ∧ g'.owner = g.owner := by
  induction gs with
  | nil => simp [alistGet] at h
  | cons p rest ih =>
    cases p with
    | mk pid pg =>
      rw [alistGet] at h
      by_cases hpid : pid = gid
      · rw [if_pos hpid] at h
        injection h with h
        subst h
        rw [join_guild]
        by_cases hc : pg.invite_code = c
        · rw [if_pos hc]
          by_cases hu : u ∈ pg.members
          · exact ⟨pg, by simp [alistGet, hpid, hu], List.prefix_rfl, rfl⟩
          · refine ⟨{ pg with members := pg.members ++ [u] }, ?_, ⟨[u], rfl⟩, rfl⟩
            simp [alistGet, hpid, hu]
        · rw [if_neg hc]
          exact ⟨pg, by simp [alistGet, hpid], List.prefix_rfl, rfl⟩
      · rw [if_neg hpid] at h
        rw [join_guild]
        by_cases hc : pg.invite_code = c
        · rw [if_pos hc]
          exact ⟨g, by simp [alistGet, hpid, h], List.prefix_rfl, rfl⟩
        · rw [if_neg hc]
          obtain ⟨g', hg', hp, ho⟩ := ih h
          exact ⟨g', by simp [alistGet, hpid, hg'], hp, ho⟩

/-- Every guild binding after a `join_guild` came from a binding before it,
with the same owner and at most the joining name appended. -/
theorem join_guild_lookup_rev (gs : List (String × Guild)) (c : String) (u : Username)
    (gid : String) (g' : Guild) (h : alistGet (join_guild gs c u).1 gid = some g') :
    ∃ g, alistGet gs gid = some g ∧ g'.owner = g.owner ∧
      (g'.members = g.members ∨ g'.members = g.members ++ [u]) := by
  induction gs with
  | nil => simp [join_guild, alistGet] at h
  | cons p rest ih =>
    cases p with
    | mk pid pg =>
      rw [join_guild] at h
      by_cases hc : pg.invite_code = c
      · rw [if_pos hc] at h
        rw [alistGet] at h
        by_cases hpid : pid = gid
        · rw [if_pos hpid] at h
          injection h with h
          refine ⟨pg, by simp [alistGet, hpid], ?_, ?_⟩
          · rw [← h]
            by_cases hu : u ∈ pg.members <;> simp [hu]
          · rw [← h]
            by_cases hu : u ∈ pg.members
            · exact Or.inl (by simp [hu])
            · exact Or.inr (by simp [hu])
        · rw [if_neg hpid] at h
          exact ⟨g', by simp [alistGet, hpid, h], rfl, Or.inl rfl⟩
      · rw [if_neg hc] at h
        rw [alistGet] at h
        by_cases hpid : pid = gid
        · rw [if_pos hpid] at h
          injection h with h
          refine ⟨pg, by simp [alistGet, hpid], ?_, Or.inl ?_⟩
          · rw [← h]
          · rw [← h]
        · rw [if_neg hpid] at h
          obtain ⟨g, hg, ho, hm⟩ := ih h
          exact ⟨g, by simp [alistGet, hpid, hg], ho, hm⟩

/-- One message-loop iteration preserves the owner-membership invariant. -/
theorem guildInv_handleMessage (s : ServerState) (ws : SessionId) (u : Username)
    (data : Option Envelope) (now fid fcode : String) (hinv : GuildInv s) :
    GuildInv (handleMessage s ws u data now fid fcode).1 := by
  rcases handleMessage_guilds s ws u data now fid fcode with h | ⟨n, h⟩ | ⟨c, h⟩
  · intro gid g hg
    rw [h] at hg
    exact hinv gid g hg
  · intro gid g hg
    rw [h] at hg
    by_cases hk : gid = fid
    · subst hk
      rw [alistGet_set_self] at hg
      injection hg with hg
      subst hg
      simp
    · rw [alistGet_set_ne _ _ _ _ hk] at hg
      exact hinv _ _ hg
  · intro gid g hg
    rw [h] at hg
    obtain ⟨g0, hg0, ho, hm⟩ := join_guild_lookup_rev s.guilds c u gid g hg
    have hown := hinv _ _ hg0
    rcases hm with hm | hm <;> rw [ho, hm]
    · exact hown
    · exact List.mem_append_left _ hown

/-- Every server transition preserves the owner-membership invariant. -/
theorem step_guildInv {s s' : ServerState} (h : Step s s') (hinv : GuildInv s) : GuildInv s' := by
  cases h with
  | auth ws first =>
    intro gid g hg
    rw [auth_step_guilds] at hg
    exact hinv _ _ hg
  | message ws u data now fid fcode hfresh =>
    exact guildInv_handleMessage s ws u data now fid fcode hinv
  | disconnect ws =>
    intro gid g hg
    rw [unregister_user_guilds] at hg
    exact hinv _ _ hg

/-- The owner-membership invariant holds in every reachable state. -/
theorem reachable_guildInv (s : ServerState) (h : Reachable s) : GuildInv s := by
  induction h with
  | refl =>
    intro gid g hg
    simp [initState, alistGet] at hg
  | tail _ hstep ih => exact step_guildInv hstep ih

/-- Across any single transition, an existing guild's binding survives and
its members list is only extended at the end. -/
theorem step_members_mono {s s' : ServerState} (h : Step s s') (gid : String) (g : Guild)
    (hg : alistGet s.guilds gid = some g) :
    ∃ g', alistGet s'.guilds gid = some g' ∧ g.members <+: g'.members := by
  cases h with
  | auth ws first =>
    rw [auth_step_guilds]
    exact ⟨g, hg, List.prefix_rfl⟩
  | message ws u data now fid fcode hfresh =>
    rcases handleMessage_guilds s ws u data now fid fcode with h | ⟨n, h⟩ | ⟨c, h⟩
    · rw [h]
      exact ⟨g, hg, List.prefix_rfl⟩
    · rw [h]
      have hne : gid ≠ fid := by
        intro hk
        rw [hk, hfresh] at hg
        cases hg
      rw [alistGet_set_ne _ _ _ _ hne]
      exact ⟨g, hg, List.prefix_rfl⟩
    · rw [h]
      obtain ⟨g', hg', hp, _⟩ := join_guild_lookup_mono s.guilds c u gid g hg
      exact ⟨g', hg', hp⟩
  | disconnect ws =>
    rw [unregister_user_guilds]
    exact ⟨g, hg, List.prefix_rfl⟩

/-- C1: a `text` envelope from session A with `currentGuild = G` is stamped
with the server clock and appended to G's history, and the broadcast is
computed over the post-append state; it reaches exactly the connected
sessions whose `currentGuild` is G other than A, and A receives nothing. -/
theorem C1_text_history_and_broadcast (s : ServerState) (ws : SessionId) (u : Username)
    (d : Envelope) (now fid fcode G : String) (ud : UserData) (hist : List Envelope)
    (ht : d.type = "text") (hud : alistGet s.connected_users ws = some ud)
    (hg : ud.guild = some G) (hh : alistGet s.message_history G = some hist) :
    (alistGet (handleMessage s ws u (some d) now fid fcode).1.message_history G =
      some (hist ++ [{ d with timestamp := some now }])) ∧
    ((handleMessage s ws u (some d) now fid fcode).2 =
      broadcast_to_guild (handleMessage s ws u (some d) now fid fcode).1 G
        { d with timestamp := some now } (some ws)) ∧
    (∀ r : SessionId,
      (r, OutMsg.relay { d with timestamp := some now }) ∈
          (handleMessage s ws u (some d) now fid fcode).2 ↔
        ∃ rd, (r, rd) ∈ s.connected_users ∧ rd.guild = some G ∧ r ≠ ws) ∧
    (∀ m : OutMsg, (ws, m) ∉ (handleMessage s ws u (some d) now fid fcode).2) := by
  have hrun : handleMessage s ws u (some d) now fid fcode =
      ({ s with message_history :=
          alistSet s.message_history G (hist ++ [{ d with timestamp := some now }]) },
       broadcast_to_guild
         { s with message_history :=
            alistSet s.message_history G (hist ++ [{ d with timestamp := some now }]) }
         G { d with timestamp := some now } (some ws)) := by
    simp [handleMessage, handle_text, ht, hud, hg, hh]
  refine ⟨?_, ?_, ?_, ?_⟩
  · rw [hrun]
    exact alistGet_set_self _ _ _
  · rw [hrun]
  · intro r
    rw [hrun, mem_broadcast_iff]
    simp [ne_eq, Option.some.injEq]
  · intro m hm
    rw [hrun, mem_broadcast_iff] at hm
    obtain ⟨-, rd, -, -, hne⟩ := hm
    exact hne rfl

/-- C1 witness: alice's `"hi"` in `sampleState` lands in `g1`'s history with
the server timestamp. -/
theorem C1_witness :
    alistGet (handleMessage sampleState 0 (some "alice")
        (some { type := "text", content := some "hi" }) "12:00:00" "f1" "F1").1.message_history
        "g1" =
      some ([] ++ [{ type := "text", content := some "hi", timestamp := some "12:00:00" }]) :=
  (C1_text_history_and_broadcast sampleState 0 (some "alice")
    { type := "text", content := some "hi" } "12:00:00" "f1" "F1" "g1" aliceD []
    rfl rfl rfl rfl).1

/-- C3: a `join_guild` whose invite code matches no guild answers the
caller with exactly the `Invalid invite code` error envelope and leaves the
whole server state untouched. -/
theorem C3_invalid_invite_error (s : ServerState) (ws : SessionId) (u : Username)
    (d : Envelope) (now fid fcode c : String)
    (ht : d.type = "join_guild") (hc : d.invite_code = some c)
    (hno : ∀ p ∈ s.guilds, p.2.invite_code ≠ c) :
    handleMessage s ws u (some d) now fid fcode =
      (s, [(ws, OutMsg.errorMsg "Invalid invite code")]) := by
  simp [handleMessage, handle_join_guild, ht, hc, join_guild_no_match s.guilds c u hno]

/-- C3 witness: joining `sampleState` with the unknown code `ZZZZZZ`. -/
theorem C3_witness :
    handleMessage sampleState 0 (some "alice")
        (some { type := "join_guild", invite_code := some "ZZZZZZ" }) "12:00:00" "f1" "F1" =
      (sampleState, [(0, OutMsg.errorMsg "Invalid invite code")]) :=
  C3_invalid_invite_error sampleState 0 (some "alice")
    { type := "join_guild", invite_code := some "ZZZZZZ" } "12:00:00" "f1" "F1" "ZZZZZZ"
    rfl rfl (by decide)

/-- C4: a valid `switch_guild` (guild exists, requester is a member) sets
the session's `currentGuild` and sends exactly the three snapshots in the
fixed order history, voice state, screen state; and neither `create_guild`
nor `join_guild` ever touches the session registry (hence no session's
`currentGuild`). -/
theorem C4_switch_guild_snapshots (s : ServerState) (ws : SessionId) (u : Username)
    (d : Envelope) (now fid fcode gid : String) (g : Guild) (ud : UserData)
    (ht : d.type = "switch_guild") (hgid : d.guild_id = some gid)
    (hlook : alistGet s.guilds gid = some g) (hmem : u ∈ g.members)
    (hud : alistGet s.connected_users ws = some ud) :
    (handleMessage s ws u (some d) now fid fcode =
      ({ s with connected_users := alistSet s.connected_users ws { ud with guild := some gid } },
       [(ws, OutMsg.messageHistory ((alistGet s.message_history gid).getD [])),
        (ws, OutMsg.voiceState ((alistGet s.voice_state gid).getD [])),
        (ws, OutMsg.screenState ((alistGet s.screen_state gid).getD []))])) ∧
    (∀ d' : Envelope, d'.type = "create_guild" ∨ d'.type = "join_guild" →
      (handleMessage s ws u (some d') now fid fcode).1.connected_users =
        s.connected_users) := by
  constructor
  · simp [handleMessage, handle_switch_guild, ht, hgid, hlook, hmem, hud]
  · intro d' hd'
    rcases hd' with h | h
    · cases hn : d'.name with
      | none => simp [handleMessage, handle_create_guild, h, hn]
      | some n => simp [handleMessage, handle_create_guild, h, hn, create_guild]
    · cases hc : d'.invite_code with
      | none => simp [handleMessage, handle_join_guild, h, hc]
      | some c =>
        cases hr : (join_guild s.guilds c u).2 with
        | none => simp [handleMessage, handle_join_guild, h, hc, hr]
        | some gg => simp [handleMessage, handle_join_guild, h, hc, hr]

/-- C4 witness: alice switching into `g1` from `sampleState`. -/
theorem C4_witness :
    handleMessage sampleState 0 (some "alice")
        (some { type := "switch_guild", guild_id := some "g1" }) "12:00:00" "f1" "F1" =
      ({ sampleState with
          connected_users := alistSet sampleState.connected_users 0
            { aliceD with guild := some "g1" } },
       [(0, OutMsg.messageHistory ((alistGet sampleState.message_history "g1").getD [])),
        (0, OutMsg.voiceState ((alistGet sampleState.voice_state "g1").getD [])),
        (0, OutMsg.screenState ((alistGet sampleState.screen_state "g1").getD []))]) :=
  (C4_switch_guild_snapshots sampleState 0 (some "alice")
    { type := "switch_guild", guild_id := some "g1" } "12:00:00" "f1" "F1" "g1"
    sampleGuild aliceD rfl rfl rfl (by decide) rfl).1

/-- C6: in a broadcast delivery where one recipient's send fails, every
recipient (in particular every other one) still gets its own delivery
attempt with its own outcome, and the whole delivery returns normally with
one collected result per recipient — a failure is captured as a value, not
raised. -/
theorem C6_broadcast_failure_isolation (s : ServerState) (gid : String)
    (sender : Option SessionId) (attempt : SessionId → Except String Unit)
    (r0 : SessionId) (e : String)
    (hr0 : r0 ∈ recipientsOf s gid sender) (hfail : attempt r0 = .error e) :
    ((broadcast_deliver s gid sender attempt).length = (recipientsOf s gid sender).length) ∧
    ((r0, Except.error e) ∈ broadcast_deliver s gid sender attempt) ∧
    (∀ r ∈ recipientsOf s gid sender, r ≠ r0 →
      (r, attempt r) ∈ broadcast_deliver s gid sender attempt) := by
  refine ⟨by simp [broadcast_deliver, gather_send], ?_, ?_⟩
  · simp only [broadcast_deliver, gather_send, List.mem_map]
    exact ⟨r0, hr0, by rw [hfail]⟩
  · intro r hr _
    simp only [broadcast_deliver, gather_send, List.mem_map]
    exact ⟨r, hr, rfl⟩

/-- C6 witness: in `sampleState`, with session 1's transport failed, the
delivery still produces one result per recipient of `g1`. -/
theorem C6_witness :
    (broadcast_deliver sampleState "g1" none sampleAttempt).length =
      (recipientsOf sampleState "g1" none).length :=
  (C6_broadcast_failure_isolation sampleState "g1" none sampleAttempt 1 "connection closed"
    (by decide) rfl).1

/-- C8 counterexample: the first envelope `{type: "auth"}` with no username
field is not an auth message "including a display name", yet the session is
registered (the connection reaches the message loop) and the state is
mutated — the code checks only `type == 'auth'` and stores
`auth_data.get('username')`, which is `None`. -/
theorem C8_counterexample :
    ({ type := "auth" } : Envelope).username = none ∧
    (auth_step initState 0 (some { type := "auth" })).2.2 = true ∧
    (auth_step initState 0 (some { type := "auth" })).1 ≠ initState := by
  refine ⟨rfl, rfl, ?_⟩
  decide

/-- C8 (amended): the transition to Authenticated happens exactly when the
first parsed envelope has `type = auth` — whether or not it includes a
display name; the stored name is the envelope's `username` field, possibly
absent (`none`).  Any other first envelope, or an unparseable first frame,
transitions directly to Closed with no side effects. -/
theorem C8_auth_amended (s : ServerState) (ws : SessionId) (first : Option Envelope) :
    (first = none → auth_step s ws first = (s, [], false)) ∧
    (∀ d : Envelope, first = some d → d.type ≠ "auth" →
      auth_step s ws first = (s, [], false)) ∧
    (∀ d : Envelope, first = some d → d.type = "auth" →
      auth_step s ws first =
        ({ s with connected_users := alistSet s.connected_users ws ⟨d.username, none⟩ },
         [(ws, OutMsg.guildList
            ((s.guilds.filter (fun p => decide (d.username ∈ p.2.members))).map
              (fun p => (p.2.id, p.2.name, p.2.invite_code))))], true)) := by
  refine ⟨?_, ?_, ?_⟩
  · intro h
    subst h
    rfl
  · intro d h ht
    subst h
    simp [auth_step, ht]
  · intro d h ht
    subst h
    simp [auth_step, ht]

/-- C8 amended witness: a first envelope of type `text` closes the
connection with no side effects. -/
theorem C8_witness :
    auth_step initState 0 (some { type := "text" }) = (initState, [], false) :=
  (C8_auth_amended initState 0 (some { type := "text" })).2.1
    { type := "text" } rfl (by decide)

/-- C9: an unparseable frame, an envelope whose `type` is none of the
recognized action kinds, or a recognized action missing the field its
handler subscripts (`KeyError` before any mutation) is ignored: the
dispatcher returns with the state unchanged and nothing sent, and the
message loop goes on to the next frame. -/
theorem C9_malformed_ignored (s : ServerState) (ws : SessionId) (u : Username)
    (now fid fcode : String) :
    (handleMessage s ws u none now fid fcode = (s, [])) ∧
    (∀ d : Envelope, d.type ∉ recognizedTypes →
      handleMessage s ws u (some d) now fid fcode = (s, [])) ∧
    (∀ d : Envelope, d.type = "create_guild" → d.name = none →
      handleMessage s ws u (some d) now fid fcode = (s, [])) ∧
    (∀ d : Envelope, d.type = "join_guild" → d.invite_code = none →
      handleMessage s ws u (some d) now fid fcode = (s, [])) ∧
    (∀ d : Envelope, d.type = "switch_guild" → d.guild_id = none →
      handleMessage s ws u (some d) now fid fcode = (s, [])) := by
  refine ⟨rfl, ?_, ?_, ?_, ?_⟩
  · intro d ht
    simp only [recognizedTypes, List.mem_cons, List.not_mem_nil, or_false, not_or] at ht
    obtain ⟨h1, h2, h3, h4, h5, h6, h7, h8, h9, h10⟩ := ht
    simp [handleMessage, h1, h2, h3, h4, h5, h6, h7, h8, h9, h10]
  · intro d ht hn
    simp [handleMessage, handle_create_guild, ht, hn]
  · intro d ht hn
    simp [handleMessage, handle_join_guild, ht, hn]
  · intro d ht hn
    simp [handleMessage, handle_switch_guild, ht, hn]

/-- C9 witness: an envelope of unknown type `bogus` is a no-op on
`sampleState`. -/
theorem C9_witness :
    handleMessage sampleState 0 (some "alice") (some { type := "bogus" })
        "12:00:00" "f1" "F1" = (sampleState, []) :=
  (C9_malformed_ignored sampleState 0 (some "alice") "12:00:00" "f1" "F1").2.1
    { type := "bogus" } (by decide)

/-- C10: an authenticated session whose `currentGuild` is null receiving
any in-guild action (`text`, `voice_join`, `voice_leave`, `voice_data`,
`screen_start`, `screen_stop`, `screen_frame`) is a complete no-op: state
unchanged and nothing sent back, not even an error (`if guild_id:` guards
every branch). -/
theorem C10_no_guild_noop (s : ServerState) (ws : SessionId) (u : Username)
    (d : Envelope) (now fid fcode : String) (ud : UserData)
    (hud : alistGet s.connected_users ws = some ud) (hg : ud.guild = none)
    (ht : d.type ∈ inGuildTypes) :
    handleMessage s ws u (some d) now fid fcode = (s, []) := by
  simp only [inGuildTypes, List.mem_cons, List.not_mem_nil, or_false] at ht
  rcases ht with h | h | h | h | h | h | h <;>
    simp [handleMessage, handle_text, handle_voice_join, handle_voice_leave,
      handle_voice_data, handle_screen_start, handle_screen_stop, handle_screen_frame,
      h, hud, hg]

/-- C10 witness: carol (connected, no guild) sending `text` is a no-op. -/
theorem C10_witness :
    handleMessage sampleState 2 (some "carol") (some { type := "text", content := some "hi" })
        "12:00:00" "f1" "F1" = (sampleState, []) :=
  C10_no_guild_noop sampleState 2 (some "carol") { type := "text", content := some "hi" }
    "12:00:00" "f1" "F1" carolD rfl rfl (by decide)

/-- Shape of a disconnect cleanup for a session that was in its guild's
voice set: the voice binding loses the name and a `voice_leave` broadcast
is emitted, followed only by (possible) `screen_stop` sends, and the
session leaves the registry. -/
theorem unregister_user_spec (s : ServerState) (ws : SessionId) (ud : UserData) (gid : String)
    (vs : List Username)
    (hud : alistGet s.connected_users ws = some ud) (hg : ud.guild = some gid)
    (hvs : alistGet s.voice_state gid = some vs) (hin : ud.username ∈ vs) :
    ∃ out2 scr,
      unregister_user s ws =
        (⟨alistErase s.connected_users ws, s.guilds, s.message_history,
          alistSet s.voice_state gid (vs.erase ud.username), scr⟩,
         broadcast_to_guild
           { s with voice_state := alistSet s.voice_state gid (vs.erase ud.username) }
           gid { type := "voice_leave", sender := some ud.username } none ++ out2) ∧
      ∀ x ∈ out2,
        ∃ r', x = (r', OutMsg.relay { type := "screen_stop", sender := some ud.username }) := by
  cases hss : alistGet s.screen_state gid with
  | none =>
    refine ⟨[], s.screen_state, ?_, by simp⟩
    simp [unregister_user, unregister_voice_cleanup, unregister_screen_cleanup,
      hud, hg, hvs, hin, hss]
  | some ss =>
    by_cases hinss : ud.username ∈ ss
    · refine ⟨broadcast_to_guild
        { s with voice_state := alistSet s.voice_state gid (vs.erase ud.username),
                 screen_state := alistSet s.screen_state gid (ss.erase ud.username) }
        gid { type := "screen_stop", sender := some ud.username } none,
        alistSet s.screen_state gid (ss.erase ud.username), ?_, ?_⟩
      · simp [unregister_user, unregister_voice_cleanup, unregister_screen_cleanup,
          hud, hg, hvs, hin, hss, hinss]
      · intro x hx
        rcases List.mem_map.1 hx with ⟨r', _, heq⟩
        exact ⟨r', heq.symm⟩
    · refine ⟨[], s.screen_state, ?_, by simp⟩
      simp [unregister_user, unregister_voice_cleanup, unregister_screen_cleanup,
        hud, hg, hvs, hin, hss, hinss]

/-- C7: when a session in its guild's voice set disconnects without
`voice_leave`, cleanup removes its name from the guild's voice set, every
other connected session of that guild is sent exactly one synthetic
`voice_leave` naming it, the name is absent from the voice snapshot read
after cleanup, and a second cleanup invocation is a no-op (runs-once).
Key uniqueness of the registry and the presence dict are CPython dict
facts, taken as hypotheses. -/
theorem C7_disconnect_voice_cleanup (s : ServerState) (ws : SessionId) (ud : UserData)
    (gid : String) (vs : List Username)
    (hud : alistGet s.connected_users ws = some ud) (hg : ud.guild = some gid)
    (hvs : alistGet s.voice_state gid = some vs) (hin : ud.username ∈ vs)
    (hkeys : (s.connected_users.map Prod.fst).Nodup) (hvsn : vs.Nodup) :
    (alistGet (unregister_user s ws).1.voice_state gid = some (vs.erase ud.username)) ∧
    (ud.username ∉ ((alistGet (unregister_user s ws).1.voice_state gid).getD [])) ∧
    (∀ r rd, (r, rd) ∈ s.connected_users → rd.guild = some gid → r ≠ ws →
      (unregister_user s ws).2.count
        (r, OutMsg.relay { type := "voice_leave", sender := some ud.username }) = 1) ∧
    (unregister_user (unregister_user s ws).1 ws = ((unregister_user s ws).1, [])) := by
  obtain ⟨out2, scr, hrun, hout2⟩ := unregister_user_spec s ws ud gid vs hud hg hvs hin
  have hvoice : alistGet (unregister_user s ws).1.voice_state gid =
      some (vs.erase ud.username) := by
    rw [hrun]
    exact alistGet_set_self _ _ _
  refine ⟨hvoice, ?_, ?_, ?_⟩
  · rw [hvoice]
    intro hmem
    exact (hvsn.mem_erase_iff.1 hmem).1 rfl
  · intro r rd hmem hgd hne
    rw [hrun]
    simp only [List.count_append]
    have h1 : (broadcast_to_guild
        { s with voice_state := alistSet s.voice_state gid (vs.erase ud.username) }
        gid { type := "voice_leave", sender := some ud.username } none).count
        (r, OutMsg.relay { type := "voice_leave", sender := some ud.username }) = 1 := by
      rw [broadcast_to_guild, count_pair_map]
      exact count_key_filter s.connected_users r rd _ hkeys hmem
        (decide_eq_true ⟨hgd, by simp⟩)
    have h2 : out2.count
        (r, OutMsg.relay { type := "voice_leave", sender := some ud.username }) = 0 := by
      rw [List.count_eq_zero]
      intro hx
      obtain ⟨r', heq⟩ := hout2 _ hx
      simp [Prod.ext_iff, OutMsg.relay.injEq, Envelope.mk.injEq] at heq
    rw [h1, h2]
  · rw [hrun]
    simp [unregister_user, alistGet_erase_self _ _ hkeys]

/-- C7 witness: alice (in `g1`'s voice set) disconnecting from
`sampleState` leaves the voice set without her name. -/
theorem C7_witness :
    alistGet (unregister_user sampleState 0).1.voice_state "g1" =
      some ([some "alice"].erase (some "alice")) :=
  (C7_disconnect_voice_cleanup sampleState 0 aliceD "g1" [some "alice"]
    rfl rfl rfl (by decide) (by decide) (by decide)).1

/-- C2: create a guild with fresh tokens, then join it any positive number
of times with its invite code as the same user: the user's name ends up in
that guild's members exactly once (idempotence).  Token freshness reflects
the `uuid.uuid4()` generation. -/
theorem C2_join_idempotent (s : ServerState) (freshId freshCode name : String)
    (owner u : Username) (n : Nat)
    (hid : alistGet s.guilds freshId = none)
    (hcode : ∀ p ∈ s.guilds, p.2.invite_code ≠ freshCode) :
    ∃ g : Guild,
      alistGet
        (iterate_join (n+1)
          (create_guild s freshId freshCode name owner).1.guilds freshCode u) freshId =
        some g ∧
      g.members.count u = 1 := by
  have hkeys : freshId ∉ s.guilds.map Prod.fst := (alistGet_eq_none_iff _ _).1 hid
  have hguilds : (create_guild s freshId freshCode name owner).1.guilds =
      s.guilds ++ [(freshId, { id := freshId, name := name, owner := owner,
                               invite_code := freshCode, members := [owner] })] := by
    simp [create_guild, alistSet_of_get_none _ _ _ hid]
  set g0 : Guild := { id := freshId, name := name, owner := owner,
                      invite_code := freshCode, members := [owner] } with hg0
  set g1 : Guild := if u ∈ g0.members then g0 else { g0 with members := g0.members ++ [u] }
    with hg1
  have humem : u ∈ g1.members := by
    rw [hg1]
    split
    · assumption
    · simp
  have hjoin1 : join_guild (s.guilds ++ [(freshId, g0)]) freshCode u =
      (s.guilds ++ [(freshId, g1)], some g1) :=
    join_guild_last s.guilds freshId g0 freshCode u hcode rfl
  have hjoin2 : (join_guild (s.guilds ++ [(freshId, g1)]) freshCode u).1 =
      s.guilds ++ [(freshId, g1)] := by
    rw [join_guild_last s.guilds freshId g1 freshCode u hcode (by rw [hg1]; split <;> rfl)]
    simp [humem]
  rw [hguilds, iterate_join, hjoin1]
  rw [iterate_join_fixed n _ _ _ hjoin2]
  refine ⟨g1, ?_, ?_⟩
  · rw [alistGet_append_right _ _ _ hkeys, alistGet, if_pos rfl]
  · rw [hg1, hg0]
    by_cases hcase : u = owner
    · subst hcase
      simp [List.count_cons]
    · simp [List.count_cons, hcase, Ne.symm hcase]

/-- C2 witness: bob joining alice's freshly created guild twice appears in
its members exactly once. -/
theorem C2_witness :
    ∃ g : Guild,
      alistGet
        (iterate_join 2 (create_guild initState "g1" "ABC123" "Test" (some "alice")).1.guilds
          "ABC123" (some "bob")) "g1" = some g ∧
      g.members.count (some "bob") = 1 :=
  C2_join_idempotent initState "g1" "ABC123" "Test" (some "alice") (some "bob") 1
    rfl (by simp [initState])

/-- C5: in every reachable state every guild's members list contains the
guild's owner, and across any single transition every existing guild
survives with its members list only extended (no member removal, no guild
deletion). -/
theorem C5_guild_invariants :
    (∀ s : ServerState, Reachable s → ∀ gid g, alistGet s.guilds gid = some g →
      g.owner ∈ g.members) ∧
    (∀ s s' : ServerState, Step s s' → ∀ gid g, alistGet s.guilds gid = some g →
      ∃ g', alistGet s'.guilds gid = some g' ∧ g.members <+: g'.members) :=
  ⟨fun s hs gid g hg => reachable_guildInv s hs gid g hg,
   fun _ _ h gid g hg => step_members_mono h gid g hg⟩

/-- C5 witness: after alice creates `Test` (reachable in one step) the
owner is a member; and across bob's join step the members list of `g1` is
only extended. -/
theorem C5_witness :
    (({ id := "g1", name := "Test", owner := some "alice", invite_code := "ABC123", members := [some "alice"] } : Guild).owner ∈
      ({ id := "g1", name := "Test", owner := some "alice", invite_code := "ABC123", members := [some "alice"] } : Guild).members) ∧
    (∃ g', alistGet (handleMessage
        (handleMessage initState 0 (some "alice")
          (some { type := "create_guild", name := some "Test" }) "12:00:00" "g1" "ABC123").1
        1 (some "bob") (some { type := "join_guild", invite_code := some "ABC123" })
        "12:00:01" "g2" "DEF456").1.guilds "g1" = some g' ∧
      ({ id := "g1", name := "Test", owner := some "alice", invite_code := "ABC123", members := [some "alice"] } : Guild).members <+: g'.members) := by
  constructor
  · exact C5_guild_invariants.1
      (handleMessage initState 0 (some "alice")
        (some { type := "create_guild", name := some "Test" }) "12:00:00" "g1" "ABC123").1
      (Relation.ReflTransGen.single
        (Step.message initState 0 (some "alice")
          (some { type := "create_guild", name := some "Test" }) "12:00:00" "g1" "ABC123" rfl))
      "g1" _ (by decide)
  · exact C5_guild_invariants.2
      (handleMessage initState 0 (some "alice")
        (some { type := "create_guild", name := some "Test" }) "12:00:00" "g1" "ABC123").1
      _
      (Step.message _ 1 (some "bob")
        (some { type := "join_guild", invite_code := some "ABC123" }) "12:00:01" "g2" "DEF456"
        (by decide))
      "g1" _ (by decide)
